import Mathlib

/-!
Verification of the GDSCC station-configuration repository
(`MonitorControl.Configurations.configGDSCC`).

The development shallowly embeds the Python sources:

* `src/__init__.py` — the station table `cfg` and `make_switch_inputs`;
* `src/DTO.py` — `station_configuration` for the DTO variant and the
  module-level ROACH-availability check;
* `src/dss13.py` — `get_FE_band_and_pols`, `connect_FE_inputs_and_outputs`
  and `connect_receiver_inputs_and_outputs`.

Python dictionaries are embedded as association lists in insertion order
(`dset` updates in place when the key is present and appends otherwise,
exactly like `d[k] = v`; `dpop` is `d.pop(k)` without a default).  Python
exceptions are embedded as the `PyErr` error type of an `Except` result;
functions that mutate `Port` objects in place return the partially updated
port dictionary inside the error so that "which ports were already linked
when the exception was raised" remains observable.
-/

/-- Python exception classes that the embedded code can raise.
`observatoryError` stands for `MonitorControl.ObservatoryError`. -/
inductive PyErr where
  | keyError
  | nameError
  | attributeError
  | assertionError
  | valueError
  | typeError
  | indexError
  | observatoryError
deriving DecidableEq, Repr

/-- Association list standing for a Python `dict` in insertion order. -/
abbrev PyDict (κ ν : Type) := List (κ × ν)

/-- `d[k]`, as an `Option`: the value at the first entry whose key is `k`. -/
def dlookup {κ ν : Type} [DecidableEq κ] (k : κ) : PyDict κ ν → Option ν
  | [] => none
  | (k', v) :: rest => if k' = k then some v else dlookup k rest

/-- `d[k] = v`: replace the value in place when the key exists, append a new
entry otherwise (Python dict assignment preserves insertion order). -/
def dset {κ ν : Type} [DecidableEq κ] (d : PyDict κ ν) (k : κ) (v : ν) : PyDict κ ν :=
  match dlookup k d with
  | some _ => d.map (fun q => (q.1, if q.1 = k then v else q.2))
  | none => d ++ [(k, v)]

/-- Drop every entry with key `k`.  A Python dict has no duplicate keys, so
on the dictionaries built here this is `del d[k]`. -/
def dremove {κ ν : Type} [DecidableEq κ] (k : κ) : PyDict κ ν → PyDict κ ν
  | [] => []
  | (k', v) :: rest => if k' = k then dremove k rest else (k', v) :: dremove k rest

/-- `d.pop(k)` with no default: `KeyError` when the key is absent. -/
def dpop {κ ν : Type} [DecidableEq κ] (d : PyDict κ ν) (k : κ) : Except PyErr (PyDict κ ν) :=
  match dlookup k d with
  | some _ => .ok (dremove k d)
  | none => .error .keyError

/-- The keys of a dictionary, in insertion order. -/
def dkeys {κ ν : Type} (d : PyDict κ ν) : List κ := d.map Prod.fst

theorem dlookup_append {κ ν : Type} [DecidableEq κ] (k : κ) (d₁ d₂ : PyDict κ ν) :
    dlookup k (d₁ ++ d₂) = (dlookup k d₁).orElse (fun _ => dlookup k d₂) := by
  induction d₁ with
  | nil => simp [dlookup]
  | cons q rest ih =>
    obtain ⟨k', v⟩ := q
    by_cases h : k' = k <;> simp [dlookup, h, ih]

theorem dlookup_map_update {κ ν : Type} [DecidableEq κ] (k : κ) (v : ν) (d : PyDict κ ν) :
    dlookup k (d.map (fun q => (q.1, if q.1 = k then v else q.2)))
      = (dlookup k d).map (fun _ => v) := by
  induction d with
  | nil => simp [dlookup]
  | cons q rest ih =>
    obtain ⟨k', v'⟩ := q
    by_cases h : k' = k <;> simp [dlookup, h, ih]

theorem dlookup_map_update_ne {κ ν : Type} [DecidableEq κ] {k k' : κ} (hne : k' ≠ k) (v : ν)
    (d : PyDict κ ν) :
    dlookup k' (d.map (fun q => (q.1, if q.1 = k then v else q.2))) = dlookup k' d := by
  induction d with
  | nil => simp [dlookup]
  | cons q rest ih =>
    obtain ⟨k'', v'⟩ := q
    by_cases h' : k'' = k'
    · subst h'
      simp [dlookup, Ne.symm hne, hne, ih]
    · simp [dlookup, h', ih]

theorem dlookup_dset_self {κ ν : Type} [DecidableEq κ] (d : PyDict κ ν) (k : κ) (v : ν) :
    dlookup k (dset d k v) = some v := by
  unfold dset
  cases h : dlookup k d with
  | some v' => simp [dlookup_map_update, h]
  | none => simp [dlookup_append, h, dlookup]

theorem dlookup_dset_ne {κ ν : Type} [DecidableEq κ] (d : PyDict κ ν) {k k' : κ}
    (hne : k' ≠ k) (v : ν) : dlookup k' (dset d k v) = dlookup k' d := by
  unfold dset
  cases h : dlookup k d with
  | some v' => simp [dlookup_map_update_ne hne]
  | none =>
    rw [dlookup_append]
    have : dlookup k' [(k, v)] = none := by simp [dlookup, Ne.symm hne]
    rw [this]
    cases dlookup k' d <;> rfl

theorem dlookup_isSome_iff_mem_dkeys {κ ν : Type} [DecidableEq κ] (k : κ) (d : PyDict κ ν) :
    (dlookup k d).isSome = true ↔ k ∈ dkeys d := by
  induction d with
  | nil => simp [dlookup, dkeys]
  | cons q rest ih =>
    obtain ⟨k', v⟩ := q
    by_cases h : k' = k
    · subst h
      simp [dlookup, dkeys]
    · simp only [dlookup, dkeys, h, if_false, List.map_cons, List.mem_cons]
      rw [ih]
      simp [dkeys, Ne.symm h]

theorem dlookup_mem {κ ν : Type} [DecidableEq κ] {k : κ} {v : ν} {d : PyDict κ ν}
    (h : dlookup k d = some v) : (k, v) ∈ d := by
  induction d with
  | nil => simp [dlookup] at h
  | cons q rest ih =>
    obtain ⟨k', v'⟩ := q
    by_cases hk : k' = k
    · subst hk
      simp [dlookup] at h
      simp [h]
    · simp [dlookup, hk] at h
      exact List.mem_cons_of_mem _ (ih h)

theorem dkeys_dset {κ ν : Type} [DecidableEq κ] (d : PyDict κ ν) (k : κ) (v : ν) :
    dkeys (dset d k v) = if (dlookup k d).isSome then dkeys d else dkeys d ++ [k] := by
  unfold dset
  cases h : dlookup k d with
  | some v' => simp [h, dkeys, List.map_map, Function.comp]
  | none => simp [h, dkeys]

theorem mem_dkeys_dset_self {κ ν : Type} [DecidableEq κ] (d : PyDict κ ν) (k : κ) (v : ν) :
    k ∈ dkeys (dset d k v) := by
  rw [← dlookup_isSome_iff_mem_dkeys, dlookup_dset_self]
  rfl

theorem dkeys_dset_of_mem {κ ν : Type} [DecidableEq κ] {d : PyDict κ ν} {k : κ}
    (h : k ∈ dkeys d) (v : ν) : dkeys (dset d k v) = dkeys d := by
  rw [dkeys_dset, if_pos]
  rwa [dlookup_isSome_iff_mem_dkeys]

theorem dlookup_dremove_ne {κ ν : Type} [DecidableEq κ] {k k' : κ} (hne : k' ≠ k)
    (d : PyDict κ ν) : dlookup k' (dremove k d) = dlookup k' d := by
  induction d with
  | nil => simp [dremove]
  | cons q rest ih =>
    obtain ⟨k'', v⟩ := q
    by_cases h : k'' = k
    · subst h
      simp [dremove, dlookup, Ne.symm hne, ih]
    · simp [dremove, dlookup, h, ih]

theorem not_mem_dkeys_dremove {κ ν : Type} [DecidableEq κ] (k : κ) (d : PyDict κ ν) :
    k ∉ dkeys (dremove k d) := by
  induction d with
  | nil => simp [dremove, dkeys]
  | cons q rest ih =>
    obtain ⟨k', v⟩ := q
    by_cases h : k' = k
    · simpa [dremove, h] using ih
    · simp only [dremove, h, if_false, dkeys, List.map_cons, List.mem_cons]
      push_neg
      exact ⟨fun hk => h hk.symm, by simpa [dkeys] using ih⟩

theorem mem_dkeys_of_mem_dkeys_dremove {κ ν : Type} [DecidableEq κ] {k k' : κ}
    {d : PyDict κ ν} (h : k' ∈ dkeys (dremove k d)) : k' ∈ dkeys d := by
  induction d with
  | nil => simpa [dremove, dkeys] using h
  | cons q rest ih =>
    obtain ⟨k'', v⟩ := q
    by_cases hk : k'' = k
    · rw [show dremove k ((k'', v) :: rest) = dremove k rest by simp [dremove, hk]] at h
      exact List.mem_cons_of_mem _ (ih h)
    · rw [show dremove k ((k'', v) :: rest) = (k'', v) :: dremove k rest by
        simp [dremove, hk]] at h
      simp only [dkeys, List.map_cons, List.mem_cons] at h ⊢
      rcases h with h | h
      · exact Or.inl h
      · exact Or.inr (by simpa [dkeys] using ih (by simpa [dkeys] using h))

/-!
### Decimal rendering

`make_switch_inputs` builds slot labels with Python's `"In%02d" % n`: the
decimal rendering of `n`, left-padded with `0` to at least two characters.
The digit list is computed with explicit fuel so that every definition
reduces by `decide`/`rfl` (no well-founded recursion).
-/

/-- Decimal digits of `n` (most significant first), with fuel.  Adequate
whenever `n < fuel`. -/
def decD : Nat → Nat → List Char
  | 0, _ => []
  | fuel + 1, n =>
    if n < 10 then [Nat.digitChar n]
    else decD fuel (n / 10) ++ [Nat.digitChar (n % 10)]

/-- Decimal digits of `n`, most significant first. -/
def decDigits (n : Nat) : List Char := decD (n + 1) n

theorem decD_irrel : ∀ f g n, n < f → n < g → decD f n = decD g n := by
  intro f
  induction f with
  | zero => intro g n h; omega
  | succ f ih =>
    intro g n hf hg
    match g, hg with
    | g + 1, hg =>
      by_cases h10 : n < 10
      · simp [decD, h10]
      · have hdiv : n / 10 < n := Nat.div_lt_self (by omega) (by omega)
        simp only [decD, h10, if_false]
        rw [ih g (n / 10) (by omega) (by omega)]

theorem decDigits_eq (n : Nat) :
    decDigits n = if n < 10 then [Nat.digitChar n]
                  else decDigits (n / 10) ++ [Nat.digitChar (n % 10)] := by
  have hstep : decDigits n
      = if n < 10 then [Nat.digitChar n] else decD n (n / 10) ++ [Nat.digitChar (n % 10)] :=
    rfl
  by_cases h10 : n < 10
  · rw [hstep, if_pos h10, if_pos h10]
  · rw [hstep, if_neg h10, if_neg h10]
    rw [decD_irrel n (n / 10 + 1) (n / 10) (by omega) (by omega)]
    rfl

theorem decDigits_ne_nil (n : Nat) : decDigits n ≠ [] := by
  rw [decDigits_eq]
  by_cases h10 : n < 10 <;> simp [h10]

theorem decDigits_head_ne_zero :
    ∀ n, 0 < n → ∀ c, (decDigits n).head? = some c → c ≠ '0' := by
  intro n
  induction n using Nat.strong_induction_on with
  | _ n ih =>
    intro hpos c hc
    rw [decDigits_eq] at hc
    by_cases h10 : n < 10
    · simp [h10] at hc
      subst hc
      interval_cases n <;> decide
    · simp only [h10, if_false] at hc
      have hne := decDigits_ne_nil (n / 10)
      rw [List.head?_append] at hc
      have hdiv : n / 10 < n := Nat.div_lt_self (by omega) (by omega)
      have hdivpos : 0 < n / 10 := Nat.div_pos (by omega) (by omega)
      cases hh : (decDigits (n / 10)).head? with
      | none => exact absurd (List.head?_eq_none_iff.mp hh) hne
      | some c' =>
        rw [hh] at hc
        simp at hc
        subst hc
        exact ih (n / 10) hdiv hdivpos c' hh

theorem digitChar_inj_lt :
    ∀ a < 10, ∀ b < 10, Nat.digitChar a = Nat.digitChar b → a = b := by
  decide

theorem decDigits_injective : ∀ m n, decDigits m = decDigits n → m = n := by
  intro m
  induction m using Nat.strong_induction_on with
  | _ m ih =>
    intro n h
    rw [decDigits_eq, decDigits_eq (n := n)] at h
    by_cases hm : m < 10 <;> by_cases hn : n < 10
    · simp only [hm, hn, if_true, List.cons.injEq] at h
      exact digitChar_inj_lt m hm n hn h.1
    · exfalso
      simp only [hm, hn, if_true, if_false] at h
      have hlen := congrArg List.length h
      simp only [List.length_cons, List.length_append, List.length_nil] at hlen
      have hzero : (decDigits (n / 10)).length = 0 := by omega
      exact decDigits_ne_nil (n / 10) (List.length_eq_zero.mp hzero)
    · exfalso
      simp only [hm, hn, if_true, if_false] at h
      have hlen := congrArg List.length h
      simp only [List.length_cons, List.length_append, List.length_nil] at hlen
      have hzero : (decDigits (m / 10)).length = 0 := by omega
      exact decDigits_ne_nil (m / 10) (List.length_eq_zero.mp hzero)
    · simp only [hm, hn, if_false] at h
      have hlast := congrArg List.getLast? h
      rw [List.getLast?_append_cons, List.getLast?_append_cons] at hlast
      simp at hlast
      have hmod : m % 10 = n % 10 :=
        digitChar_inj_lt (m % 10) (Nat.mod_lt _ (by omega)) (n % 10)
          (Nat.mod_lt _ (by omega)) hlast
      have hdrop := congrArg List.dropLast h
      rw [List.dropLast_concat, List.dropLast_concat] at hdrop
      have hdiv : m / 10 = n / 10 :=
        ih (m / 10) (Nat.div_lt_self (by omega) (by omega)) (n / 10) hdrop
      omega

/-- Python `str(n)` for a non-negative integer: its decimal rendering. -/
def decStr (n : Nat) : String := String.mk (decDigits n)

theorem decStr_injective : ∀ m n, decStr m = decStr n → m = n := by
  intro m n h
  exact decDigits_injective m n (by injection h)

/-- Python `"In%02d" % n`: `"In"` followed by the decimal rendering of `n`,
zero-padded on the left to at least two digits. -/
def fmtIn (n : Nat) : String :=
  "In" ++ (if n < 10 then "0" ++ decStr n else decStr n)

theorem string_mk_append (a b : List Char) :
    String.mk a ++ String.mk b = String.mk (a ++ b) := rfl

theorem fmtIn_injective : ∀ m n, fmtIn m = fmtIn n → m = n := by
  intro m n h
  unfold fmtIn decStr at h
  by_cases hm : m < 10 <;> by_cases hn : n < 10 <;>
    simp only [hm, hn, if_true, if_false] at h
  · rw [show ("0" : String) = String.mk ['0'] from rfl] at h
    rw [string_mk_append, string_mk_append] at h
    rw [show ("In" : String) = String.mk ['I', 'n'] from rfl] at h
    rw [string_mk_append, string_mk_append] at h
    have := congrArg String.data h
    simp at this
    exact decDigits_injective m n this
  · exfalso
    rw [show ("0" : String) = String.mk ['0'] from rfl] at h
    rw [string_mk_append] at h
    rw [show ("In" : String) = String.mk ['I', 'n'] from rfl] at h
    rw [string_mk_append, string_mk_append] at h
    have hdata := congrArg String.data h
    simp only [List.cons_append, List.nil_append, List.cons.injEq, true_and] at hdata
    have hpos : 0 < n := by omega
    exact decDigits_head_ne_zero n hpos '0' (by rw [← hdata]; rfl) rfl
  · exfalso
    rw [show ("0" : String) = String.mk ['0'] from rfl] at h
    rw [string_mk_append] at h
    rw [show ("In" : String) = String.mk ['I', 'n'] from rfl] at h
    rw [string_mk_append, string_mk_append] at h
    have hdata := congrArg String.data h
    simp only [List.cons_append, List.nil_append, List.cons.injEq, true_and] at hdata
    have hpos : 0 < m := by omega
    exact decDigits_head_ne_zero m hpos '0' (by rw [hdata]; rfl) rfl
  · rw [show ("In" : String) = String.mk ['I', 'n'] from rfl] at h
    rw [string_mk_append, string_mk_append] at h
    have := congrArg String.data h
    simp at this
    exact decDigits_injective m n this

theorem fmtIn_zero : fmtIn 0 = "In00" := by decide

theorem fmtIn_ne_In00 {n : Nat} (h : n ≠ 0) : fmtIn n ≠ "In00" := by
  intro hEq
  exact h (fmtIn_injective n 0 (by rw [hEq, fmtIn_zero]))

/-!
### Station table and `make_switch_inputs` (`src/__init__.py`)
-/

/-- A StationTable: station number → band code → polarization code →
switch-input slot number (`0` = not connected).  Nested Python dicts are
embedded as nested association lists in insertion order. -/
abbrev StationTable := PyDict Nat (PyDict String (PyDict String Nat))

/-- The GDSCC configuration table `cfg` of `src/__init__.py`. -/
def cfg : StationTable :=
  [ (14, [("S", [("R", 4), ("L", 0)]),
          ("X", [("R", 6), ("L", 0)])]),
    (15, [("S", [("R", 0)]),
          ("X", [("R", 0)])]),
    (24, [("S", [("R", 2)]),
          ("X", [("R", 0), ("L", 0)]),
          ("Ka", [("R", 0)])]),
    (25, [("X", [("R", 0)]),
          ("Ka", [("R", 0)])]),
    (26, [("S", [("R", 0)]),
          ("X", [("R", 18), ("L", 0)]),
          ("Ka", [("R", 20)])]) ]

/-- All `(station, band, polarization, slot)` quadruples of a table, in the
order the three nested loops of `make_switch_inputs` visit them. -/
def flattenTable (t : StationTable) : List (Nat × String × String × Nat) :=
  t.bind (fun q => q.2.bind (fun r => r.2.map (fun s => (q.1, r.1, s.1, s.2))))

/-- The `(dss, band, pol)` triple appears in the table with slot number `n`. -/
def TripleIn (t : StationTable) (dss : Nat) (band pol : String) (n : Nat) : Prop :=
  (dss, band, pol, n) ∈ flattenTable t

instance (t : StationTable) (dss : Nat) (band pol : String) (n : Nat) :
    Decidable (TripleIn t dss band pol n) := by
  unfold TripleIn
  infer_instance

/-- The StationTable invariant of the specification: distinct triples that
map to real (non-zero) slots map to distinct slot numbers. -/
def SlotsInjective (t : StationTable) : Prop :=
  ∀ q ∈ flattenTable t, ∀ q' ∈ flattenTable t,
    q.2.2.2 ≠ 0 → q'.2.2.2 ≠ 0 → q.2.2.2 = q'.2.2.2 → q = q'

instance (t : StationTable) : Decidable (SlotsInjective t) := by
  unfold SlotsInjective
  infer_instance

/-- The receiver-output value stored by `make_switch_inputs` for one table
quadruple: `rx[band+str(dss)].outputs[band+str(dss)+pol+"U"]`, with the
receiver set `rx` embedded as a function from receiver name and output-port
name to the port object. -/
def rxOutput {α : Type} (rx : String → String → α) (q : Nat × String × String × Nat) : α :=
  rx (q.2.1 ++ decStr q.1) (q.2.1 ++ decStr q.1 ++ q.2.2.1 ++ "U")

/-- The initial switch-input dictionary: `In01` … `In24`, all `None`. -/
def switchInit (α : Type) : PyDict String (Option α) :=
  (List.range' 1 24).map (fun i => (fmtIn i, (none : Option α)))

/-- The dictionary `inputs` of `make_switch_inputs` after the three nested
loops over the table, before `inputs.pop("In00")`. -/
def msiFill {α : Type} (t : StationTable) (rx : String → String → α) :
    PyDict String (Option α) :=
  t.foldl (fun acc q =>
    q.2.foldl (fun acc r =>
      r.2.foldl (fun acc s =>
        dset acc (fmtIn s.2) (some (rxOutput rx (q.1, r.1, s.1, s.2)))) acc) acc)
    (switchInit α)

/-- `make_switch_inputs(rx)` of `src/__init__.py` (also `src/DTO_32K_P4.py`),
generalized over the station table it reads (the source reads the module
dict `cfg`).  Ports are an abstract type `α`; `rx` maps receiver name and
output name to the port object. -/
def make_switch_inputs {α : Type} (t : StationTable) (rx : String → String → α) :
    Except PyErr (PyDict String (Option α)) :=
  -- inputs.pop("In00"); return inputs
  dpop (msiFill t rx) "In00"

/-- The dictionary writes `make_switch_inputs` performs, in loop order. -/
def switchWrites {α : Type} (t : StationTable) (rx : String → String → α) :
    List (String × Option α) :=
  (flattenTable t).map (fun q => (fmtIn q.2.2.2, some (rxOutput rx q)))

theorem foldl_bind {α β γ : Type} (l : List α) (f : α → List β) (g : γ → β → γ) (init : γ) :
    (l.bind f).foldl g init = l.foldl (fun acc a => (f a).foldl g acc) init := by
  induction l generalizing init with
  | nil => rfl
  | cons a rest ih => simp [List.foldl_append, ih]

theorem msiFill_eq {α : Type} (t : StationTable) (rx : String → String → α) :
    msiFill t rx
      = (switchWrites t rx).foldl (fun acc w => dset acc w.1 w.2) (switchInit α) := by
  unfold msiFill switchWrites flattenTable
  rw [List.foldl_map, foldl_bind]
  congr 1
  funext acc q
  rw [foldl_bind]
  congr 1
  funext acc' r
  rw [List.foldl_map]

theorem dlookup_foldl_dset_not_written {κ ν : Type} [DecidableEq κ] (l : List (κ × ν))
    (k : κ) (h : ∀ w ∈ l, w.1 ≠ k) (init : PyDict κ ν) :
    dlookup k (l.foldl (fun acc w => dset acc w.1 w.2) init) = dlookup k init := by
  induction l generalizing init with
  | nil => rfl
  | cons w rest ih =>
    simp only [List.foldl_cons]
    rw [ih (fun w' hw' => h w' (List.mem_cons_of_mem _ hw'))]
    exact dlookup_dset_ne init (fun hk => h w (List.mem_cons_self _ _) hk.symm) w.2

theorem dlookup_foldl_dset_const {κ ν : Type} [DecidableEq κ] (l : List (κ × ν))
    (k : κ) (v : ν) (hex : ∃ w ∈ l, w.1 = k) (hall : ∀ w ∈ l, w.1 = k → w.2 = v)
    (init : PyDict κ ν) :
    dlookup k (l.foldl (fun acc w => dset acc w.1 w.2) init) = some v := by
  induction l generalizing init with
  | nil => simp at hex
  | cons w rest ih =>
    simp only [List.foldl_cons]
    by_cases hrest : ∃ w' ∈ rest, w'.1 = k
    · exact ih hrest (fun w' hw' => hall w' (List.mem_cons_of_mem _ hw')) _
    · have hw : w.1 = k := by
        rcases hex with ⟨w', hw', hk⟩
        rcases List.mem_cons.mp hw' with h | h
        · rw [← h]; exact hk
        · exact absurd ⟨w', h, hk⟩ hrest
      have hv : w.2 = v := hall w (List.mem_cons_self _ _) hw
      rw [dlookup_foldl_dset_not_written rest k
        (fun w' hw' hk => hrest ⟨w', hw', hk⟩)]
      rw [hw, hv, dlookup_dset_self]

theorem mem_dkeys_foldl_dset {κ ν : Type} [DecidableEq κ] (l : List (κ × ν))
    (init : PyDict κ ν) (k : κ)
    (h : k ∈ dkeys (l.foldl (fun acc w => dset acc w.1 w.2) init)) :
    k ∈ dkeys init ∨ ∃ w ∈ l, w.1 = k := by
  induction l generalizing init with
  | nil => exact Or.inl h
  | cons w rest ih =>
    simp only [List.foldl_cons] at h
    rcases ih (dset init w.1 w.2) h with h' | h'
    · rw [dkeys_dset] at h'
      by_cases hs : (dlookup w.1 init).isSome
      · rw [if_pos hs] at h'
        exact Or.inl h'
      · rw [if_neg hs] at h'
        rcases List.mem_append.mp h' with h'' | h''
        · exact Or.inl h''
        · simp at h''
          exact Or.inr ⟨w, List.mem_cons_self _ _, h''.symm⟩
    · rcases h' with ⟨w', hw', hk⟩
      exact Or.inr ⟨w', List.mem_cons_of_mem _ hw', hk⟩

theorem dlookup_eq_none_of_not_mem_dkeys {κ ν : Type} [DecidableEq κ] {k : κ}
    {d : PyDict κ ν} (h : k ∉ dkeys d) : dlookup k d = none := by
  cases hl : dlookup k d with
  | none => rfl
  | some v =>
    exact absurd ((dlookup_isSome_iff_mem_dkeys k d).mp (by rw [hl]; rfl)) h

theorem dkeys_switchInit (α : Type) :
    dkeys (switchInit α) = (List.range' 1 24).map fmtIn := by
  simp [switchInit, dkeys, List.map_map]

theorem switchWrites_key_ne_In00 {α : Type} {t : StationTable} {rx : String → String → α}
    (h : ∀ q ∈ flattenTable t, q.2.2.2 ≠ 0) :
    ∀ w ∈ switchWrites t rx, w.1 ≠ "In00" := by
  intro w hw
  rcases List.mem_map.mp hw with ⟨q, hq, rfl⟩
  exact fmtIn_ne_In00 (h q hq)

/-- A concrete "receiver set" used in closed statements: the port stored for
receiver `n`, output `p` is the string `n ++ "." ++ p`. -/
def rxConcrete : String → String → String := fun n p => n ++ "." ++ p

/-- A table in which two distinct triples, `(14,S,R)` and `(15,S,R)`, both
claim slot 5 (and `(15,S,L)` is unconnected). -/
def tableDup : StationTable :=
  [ (14, [("S", [("R", 5)])]),
    (15, [("S", [("R", 5), ("L", 0)])]) ]

/-- Claim C1, counterexample: on a StationTable in which two distinct
`(station, band, polarization)` triples claim the same non-zero slot number 5,
`make_switch_inputs` does not fail — it returns a mapping. -/
theorem C1_counterexample :
    TripleIn tableDup 14 "S" "R" 5 ∧ TripleIn tableDup 15 "S" "R" 5 ∧
    (make_switch_inputs tableDup rxConcrete).isOk = true := by
  decide

/-- Claim C1 (amended): `make_switch_inputs` performs no duplicate-slot
check.  On a table where the distinct triples `(14,S,R)` and `(15,S,R)` both
claim slot 5 it raises no error; it returns a mapping in which `"In05"` is
bound to the receiver output of the triple processed later in the loop over
the table (`S15RU`), the earlier binding being silently overwritten. -/
theorem C1_amended {α : Type} (rx : String → String → α) :
    ∃ m, make_switch_inputs tableDup rx = .ok m ∧
      dlookup "In05" m = some (some (rx "S15" "S15RU")) :=
  ⟨_, rfl, rfl⟩

/-- Claim C2: whenever `make_switch_inputs` returns a mapping, every triple
`(dss, band, pol)` of the table with a uniquely-claimed slot number `n > 0`
has the slot label `"In%02d" % n` bound to exactly the object stored under
the name `band ++ str(dss) ++ pol ++ "U"` in the outputs of the receiver
named `band ++ str(dss)` — the same object `rx` holds, not a copy (the port
type `α` is abstract, so the bound value can only be that object). -/
theorem C2_theorem {α : Type} (t : StationTable) (rx : String → String → α)
    (m : PyDict String (Option α)) (dss : Nat) (band pol : String) (n : Nat)
    (hok : make_switch_inputs t rx = .ok m)
    (hin : TripleIn t dss band pol n)
    (hpos : 0 < n)
    (hinj : SlotsInjective t) :
    dlookup (fmtIn n) m
      = some (some (rx (band ++ decStr dss) (band ++ decStr dss ++ pol ++ "U"))) := by
  unfold make_switch_inputs dpop at hok
  cases hfind : dlookup "In00" (msiFill t rx) with
  | none => rw [hfind] at hok; exact absurd hok (by simp)
  | some v0 =>
    rw [hfind] at hok
    have hm : m = dremove "In00" (msiFill t rx) := by
      injection hok with h
      exact h.symm
    subst hm
    rw [dlookup_dremove_ne (fmtIn_ne_In00 (by omega)), msiFill_eq]
    apply dlookup_foldl_dset_const
    · exact ⟨(fmtIn n, some (rxOutput rx (dss, band, pol, n))),
        List.mem_map.mpr ⟨(dss, band, pol, n), hin, rfl⟩, rfl⟩
    · intro w hw hk
      rcases List.mem_map.mp hw with ⟨q', hq', rfl⟩
      have hslot : q'.2.2.2 = n := fmtIn_injective _ _ hk
      have h1 : q'.2.2.2 ≠ 0 := by rw [hslot]; omega
      have h2 : (dss, band, pol, n).2.2.2 ≠ 0 := show n ≠ 0 by omega
      have h3 : q'.2.2.2 = (dss, band, pol, n).2.2.2 := hslot
      have hq'eq : q' = (dss, band, pol, n) :=
        hinj q' hq' (dss, band, pol, n) hin h1 h2 h3
      rw [hq'eq]
      rfl

/-- Witness for C2 at the real GDSCC table: triple `(14, S, R)` has slot 4
in `cfg`, and the returned mapping binds `"In04"` to receiver `S14`'s output
`S14RU`. -/
theorem C2_witness :
    dlookup "In04" ((make_switch_inputs cfg rxConcrete).toOption.getD [])
      = some (some (rxConcrete "S14" "S14RU")) := by
  have h := C2_theorem cfg rxConcrete
    ((make_switch_inputs cfg rxConcrete).toOption.getD []) 14 "S" "R" 4
    rfl (by decide) (by decide) (by decide)
  exact h

/-- A table declaring the out-of-range slot number 37 (and one unconnected
triple so that the `"In00"` pop succeeds). -/
def table37 : StationTable := [(14, [("S", [("R", 37), ("L", 0)])])]

/-- Claim C4, counterexample: on a StationTable declaring slot number 37 the
returned mapping contains the key `"In37"`, which is not one of
`"In01"`–`"In24"`. -/
theorem C4_counterexample :
    "In37" ∈ dkeys ((make_switch_inputs table37 rxConcrete).toOption.getD [])
    ∧ "In37" ∉ (List.range' 1 24).map fmtIn := by
  decide

/-- Claim C4 (amended): whenever `make_switch_inputs` returns a mapping, the
`"In00"` bucket has been removed — `"In00"` is never a key — and every
returned key is either one of the pre-initialized labels `"In01"`–`"In24"`
or the label `"In%02d" % n` of a non-zero slot number `n` declared in the
table (slot numbers above 24 introduce keys beyond `"In24"`). -/
theorem C4_amended {α : Type} (t : StationTable) (rx : String → String → α)
    (m : PyDict String (Option α)) (hok : make_switch_inputs t rx = .ok m) :
    "In00" ∉ dkeys m ∧
    ∀ k ∈ dkeys m, (∃ n, 1 ≤ n ∧ n ≤ 24 ∧ k = fmtIn n) ∨
      ∃ dss band pol n, TripleIn t dss band pol n ∧ n ≠ 0 ∧ k = fmtIn n := by
  unfold make_switch_inputs dpop at hok
  cases hfind : dlookup "In00" (msiFill t rx) with
  | none => rw [hfind] at hok; exact absurd hok (by simp)
  | some v0 =>
    rw [hfind] at hok
    have hm : m = dremove "In00" (msiFill t rx) := by
      injection hok with h
      exact h.symm
    subst hm
    refine ⟨not_mem_dkeys_dremove _ _, ?_⟩
    intro k hk
    have hkne : k ≠ "In00" := by
      intro hkeq
      exact not_mem_dkeys_dremove "In00" (msiFill t rx) (hkeq ▸ hk)
    have hk' : k ∈ dkeys (msiFill t rx) := mem_dkeys_of_mem_dkeys_dremove hk
    rw [msiFill_eq] at hk'
    rcases mem_dkeys_foldl_dset _ _ _ hk' with h | h
    · rw [dkeys_switchInit] at h
      rcases List.mem_map.mp h with ⟨i, hi, rfl⟩
      rcases List.mem_range'_1.mp hi with ⟨h1, h2⟩
      exact Or.inl ⟨i, h1, by omega, rfl⟩
    · rcases h with ⟨w, hw, rfl⟩
      rcases List.mem_map.mp hw with ⟨q, hq, rfl⟩
      refine Or.inr ⟨q.1, q.2.1, q.2.2.1, q.2.2.2, ?_, ?_, rfl⟩
      · unfold TripleIn
        simpa using hq
      · intro h0
        exact hkne (by rw [h0, fmtIn_zero])

/-- Witness for C4: a successful run on the slot-37 table returns a mapping
with no `"In00"` key. -/
theorem C4_witness :
    "In00" ∉ dkeys ((make_switch_inputs table37 rxConcrete).toOption.getD []) :=
  (C4_amended table37 rxConcrete _ rfl).1

/-- Claim C10: `make_switch_inputs` unconditionally pops `"In00"`, so on any
StationTable in which no triple has slot number 0 — including fully
connected, entirely valid tables — the call raises `KeyError` instead of
returning the switch-input mapping. -/
theorem C10_theorem {α : Type} (t : StationTable) (rx : String → String → α)
    (h : ∀ q ∈ flattenTable t, q.2.2.2 ≠ 0) :
    make_switch_inputs t rx = .error .keyError := by
  unfold make_switch_inputs dpop
  suffices hl : dlookup "In00" (msiFill t rx) = none by rw [hl]
  rw [msiFill_eq]
  rw [dlookup_foldl_dset_not_written _ _ (switchWrites_key_ne_In00 h)]
  apply dlookup_eq_none_of_not_mem_dkeys
  rw [dkeys_switchInit]
  intro hmem
  rcases List.mem_map.mp hmem with ⟨i, hi, hfi⟩
  rcases List.mem_range'_1.mp hi with ⟨h1, _⟩
  exact fmtIn_ne_In00 (by omega) hfi

/-- A fully connected table with no slot-0 entries. -/
def tableNoZero : StationTable := [(14, [("S", [("R", 5), ("L", 6)])])]

/-- Witness for C10: on a valid, fully connected table with no slot-0
triples, `make_switch_inputs` raises `KeyError`. -/
theorem C10_witness :
    make_switch_inputs tableNoZero rxConcrete = .error .keyError :=
  C10_theorem tableNoZero rxConcrete (by decide)

/-!
### `station_configuration` for the DTO variant (`src/DTO.py`)

The external device classes (`Telescope`, `DSN_fe`, `DSN_rx`, `MS287client`,
`Valon1/2`, `KurtosisSpectrometer`) live outside this repository; nodes are
therefore an abstract type `ν` and the constructors the loop calls are
parameters.  For concrete statements, nodes are instantiated with `DevSpec`,
which records exactly the name and the output-port names the loop passes to
the external constructor.
-/

/-- What `station_configuration` passes to an external node constructor: the
node's unique name and its output-port names (the external framework creates
one output `Port` per listed name). -/
structure DevSpec where
  name : String
  output_names : List String
deriving DecidableEq, Repr

/-- The DTO configuration table (`cfg` as rebound in `src/DTO.py`, lines
40–44): station → band → list of polarizations. -/
def cfg_DTO : PyDict Nat (PyDict String (List String)) :=
  [ (14, [("S", ["R", "L"]), ("X", ["R", "L"])]),
    (15, [("S", ["R"]), ("X", ["R"])]),
    (24, [("S", ["R"]), ("X", ["R"]), ("Ka", ["R"])]),
    (25, [("X", ["R", "L"]), ("Ka", ["R"])]),
    (26, [("X", ["R", "L"]), ("Ka", ["R"])]) ]

/-- The telescope/front-end/receiver construction loop of
`station_configuration` (`src/DTO.py`, lines 63–88): for each station a
telescope; for each band a front end named `band+str(dss)` with one output
per polarization named `fename+pol` (in table order), and a receiver with
the same name whose output names append `'U'` to each front-end output
name. -/
def buildStations {ν : Type} (t : PyDict Nat (PyDict String (List String)))
    (mkTel : Nat → ν) (mkFE mkRX : String → List String → ν) :
    PyDict Nat ν × PyDict String ν × PyDict String ν :=
  t.foldl (fun acc q =>
    let tel := dset acc.1 q.1 (mkTel q.1)
    q.2.foldl (fun acc2 r =>
      let fename := r.1 ++ decStr q.1
      let outnames := r.2.map (fun pol => fename ++ pol)
      let rx_outnames := outnames.map (fun outname => outname ++ "U")
      (acc2.1,
       dset acc2.2.1 fename (mkFE fename outnames),
       dset acc2.2.2 fename (mkRX fename rx_outnames))) (tel, acc.2.1, acc.2.2))
    ([], [], [])

/-- `Telescope(obs, dss=dss)` viewed as a `DevSpec` (its name and port
naming are decided by the external class and play no role here). -/
def mkTelSpec : Nat → DevSpec := fun d => ⟨"DSS-" ++ decStr d, []⟩

/-- Claim C3: for every station `dss`, band and polarization sequence in the
configuration table, the construction loop stores a front end named
`band ++ str(dss)` whose output names are `band ++ str(dss) ++ pol` for each
polarization in table order, and a receiver (under the same name) with one
output per front-end output, named by appending `"U"`. -/
theorem C3_theorem :
    ∀ q ∈ cfg_DTO, ∀ r ∈ q.2,
      dlookup (r.1 ++ decStr q.1)
          (buildStations cfg_DTO mkTelSpec DevSpec.mk DevSpec.mk).2.1
        = some ⟨r.1 ++ decStr q.1, r.2.map (fun pol => r.1 ++ decStr q.1 ++ pol)⟩
      ∧ dlookup (r.1 ++ decStr q.1)
          (buildStations cfg_DTO mkTelSpec DevSpec.mk DevSpec.mk).2.2
        = some ⟨r.1 ++ decStr q.1,
            (r.2.map (fun pol => r.1 ++ decStr q.1 ++ pol)).map
              (fun outname => outname ++ "U")⟩ := by
  decide

/-- Witness for C3 at station 14, band S: front end `S14` has outputs
`[S14R, S14L]` and receiver `S14` has outputs `[S14RU, S14LU]`. -/
theorem C3_witness :
    dlookup "S14" (buildStations cfg_DTO mkTelSpec DevSpec.mk DevSpec.mk).2.1
      = some ⟨"S14", ["S14R", "S14L"]⟩
    ∧ dlookup "S14" (buildStations cfg_DTO mkTelSpec DevSpec.mk DevSpec.mk).2.2
      = some ⟨"S14", ["S14RU", "S14LU"]⟩ :=
  C3_theorem (14, [("S", ["R", "L"]), ("X", ["R", "L"])]) (by decide)
    ("S", ["R", "L"]) (by decide)

/-- The value stored under one key of the `equipment` dict: a name-keyed
mapping of nodes, a station- or index-keyed mapping of nodes, or one bare
node object. -/
inductive EquipVal (ν : Type) where
  | strMap (m : PyDict String ν)
  | natMap (m : PyDict Nat ν)
  | single (dev : ν)
deriving DecidableEq

/-- Whether an equipment value is a name-keyed mapping of nodes. -/
def isStrMap {ν : Type} : EquipVal ν → Bool
  | .strMap _ => true
  | _ => false

/-- `station_configuration(equipment, ...)` of `src/DTO.py`: builds the
telescope/front-end/receiver dictionaries from `cfg_DTO`, then assigns the
fixed equipment keys in source order — `Telescope` (keyed by station
number), `FrontEnd`, `Receiver` (keyed by node name), `IF_switch` (the
`{"DTO": IFswitch}` dict), `sampling_clock` (the `{0: .., 1: ..}` dict of
Valon synthesizers) and `Backend` (the backend node object itself) — and
returns `(Observatory("GDSCC"), equipment)`, the observatory modeled by its
name.  The hand-wired switch inputs and backend inputs only reference port
objects of external classes and are absorbed into the abstract node
values. -/
def station_configuration_DTO {ν : Type} (equipment : PyDict String (EquipVal ν))
    (mkTel : Nat → ν) (mkFE mkRX : String → List String → ν)
    (mkIFswitch : ν) (mkClk0 mkClk1 : ν) (mkBE : ν) :
    String × PyDict String (EquipVal ν) :=
  ("GDSCC",
    dset (dset (dset (dset (dset (dset equipment
      "Telescope" (.natMap (buildStations cfg_DTO mkTel mkFE mkRX).1))
      "FrontEnd" (.strMap (buildStations cfg_DTO mkTel mkFE mkRX).2.1))
      "Receiver" (.strMap (buildStations cfg_DTO mkTel mkFE mkRX).2.2))
      "IF_switch" (.strMap [("DTO", mkIFswitch)]))
      "sampling_clock" (.natMap [(0, mkClk0), (1, mkClk1)]))
      "Backend" (.single mkBE))

/-- `MS287client("Matrix Switch", ...)` as a `DevSpec`. -/
def swSpec : DevSpec := ⟨"Matrix Switch", ["IF1", "IF2", "IF3", "IF4"]⟩

/-- The two Valon synthesizers as `DevSpec`s. -/
def clkSpec0 : DevSpec := ⟨"Valon1", []⟩

def clkSpec1 : DevSpec := ⟨"Valon2", []⟩

/-- `KurtosisSpectrometer("Kurtosis Spectrometer", ...)` as a `DevSpec`. -/
def beSpec : DevSpec :=
  ⟨"Kurtosis Spectrometer",
   ["IF1kurt", "IF1pwr", "IF2kurt", "IF2pwr", "IF3kurt", "IF3pwr", "IF4kurt", "IF4pwr"]⟩

/-- Claim C7, counterexample: in the DTO variant the value stored under
`Backend` is the backend node object itself — not a mapping from node name
to node object — and the value under `Telescope` is keyed by station number,
not by node name. -/
theorem C7_counterexample :
    (dlookup "Backend"
        (station_configuration_DTO [] mkTelSpec DevSpec.mk DevSpec.mk
          swSpec clkSpec0 clkSpec1 beSpec).2).map isStrMap = some false
    ∧ (dlookup "Telescope"
        (station_configuration_DTO [] mkTelSpec DevSpec.mk DevSpec.mk
          swSpec clkSpec0 clkSpec1 beSpec).2).map isStrMap = some false := by
  decide

/-- Claim C7 (amended): every call of the DTO variant's
`station_configuration` returns `(observatory, equipment)` where `equipment`
contains the fixed keys `Telescope`, `FrontEnd`, `Receiver`, `IF_switch`,
`sampling_clock` and `Backend`; `FrontEnd`, `Receiver` and `IF_switch` hold
mappings from node name to node object, but `Telescope` and
`sampling_clock` hold integer-keyed mappings (station number, synthesizer
index) and `Backend` holds the backend node object itself, not a mapping. -/
theorem C7_amended {ν : Type} (equipment : PyDict String (EquipVal ν))
    (mkTel : Nat → ν) (mkFE mkRX : String → List String → ν)
    (sw c0 c1 be : ν) :
    (station_configuration_DTO equipment mkTel mkFE mkRX sw c0 c1 be).1 = "GDSCC" ∧
    dlookup "Telescope" (station_configuration_DTO equipment mkTel mkFE mkRX sw c0 c1 be).2
      = some (.natMap (buildStations cfg_DTO mkTel mkFE mkRX).1) ∧
    dlookup "FrontEnd" (station_configuration_DTO equipment mkTel mkFE mkRX sw c0 c1 be).2
      = some (.strMap (buildStations cfg_DTO mkTel mkFE mkRX).2.1) ∧
    dlookup "Receiver" (station_configuration_DTO equipment mkTel mkFE mkRX sw c0 c1 be).2
      = some (.strMap (buildStations cfg_DTO mkTel mkFE mkRX).2.2) ∧
    dlookup "IF_switch" (station_configuration_DTO equipment mkTel mkFE mkRX sw c0 c1 be).2
      = some (.strMap [("DTO", sw)]) ∧
    dlookup "sampling_clock" (station_configuration_DTO equipment mkTel mkFE mkRX sw c0 c1 be).2
      = some (.natMap [(0, c0), (1, c1)]) ∧
    dlookup "Backend" (station_configuration_DTO equipment mkTel mkFE mkRX sw c0 c1 be).2
      = some (.single be) := by
  unfold station_configuration_DTO
  refine ⟨rfl, ?_, ?_, ?_, ?_, ?_, ?_⟩
  · rw [dlookup_dset_ne _ (show ("Telescope" : String) ≠ "Backend" from by decide),
      dlookup_dset_ne _ (show ("Telescope" : String) ≠ "sampling_clock" from by decide),
      dlookup_dset_ne _ (show ("Telescope" : String) ≠ "IF_switch" from by decide),
      dlookup_dset_ne _ (show ("Telescope" : String) ≠ "Receiver" from by decide),
      dlookup_dset_ne _ (show ("Telescope" : String) ≠ "FrontEnd" from by decide),
      dlookup_dset_self]
  · rw [dlookup_dset_ne _ (show ("FrontEnd" : String) ≠ "Backend" from by decide),
      dlookup_dset_ne _ (show ("FrontEnd" : String) ≠ "sampling_clock" from by decide),
      dlookup_dset_ne _ (show ("FrontEnd" : String) ≠ "IF_switch" from by decide),
      dlookup_dset_ne _ (show ("FrontEnd" : String) ≠ "Receiver" from by decide),
      dlookup_dset_self]
  · rw [dlookup_dset_ne _ (show ("Receiver" : String) ≠ "Backend" from by decide),
      dlookup_dset_ne _ (show ("Receiver" : String) ≠ "sampling_clock" from by decide),
      dlookup_dset_ne _ (show ("Receiver" : String) ≠ "IF_switch" from by decide),
      dlookup_dset_self]
  · rw [dlookup_dset_ne _ (show ("IF_switch" : String) ≠ "Backend" from by decide),
      dlookup_dset_ne _ (show ("IF_switch" : String) ≠ "sampling_clock" from by decide),
      dlookup_dset_self]
  · rw [dlookup_dset_ne _ (show ("sampling_clock" : String) ≠ "Backend" from by decide),
      dlookup_dset_self]
  · rw [dlookup_dset_self]

/-!
### ROACH availability check (`src/DTO.py`, module level, lines 32–38)
-/

/-- The module-level ROACH-availability check of `src/DTO.py` (identical in
`src/DTO_32K.py`): `n_roaches = len(ROACHlist)`; fewer than two ROACHes only
logs a warning; fewer than one raises `ObservatoryError`; on success the
first two ROACHes are kept. -/
def n_roaches_check (ROACHlist : List String) : Except PyErr (List String) :=
  if ROACHlist.length < 1 then .error .observatoryError
  else .ok (ROACHlist.take 2)

/-- Claim C8, counterexample: a host scan that discovers exactly one ROACH —
fewer than the two the claim requires — does not abort; construction
proceeds with that ROACH. -/
theorem C8_counterexample :
    n_roaches_check ["roach1"] = .ok ["roach1"]
    ∧ (["roach1"] : List String).length < 2 :=
  ⟨rfl, by decide⟩

/-- Claim C8 (amended): configuration construction aborts (with
`ObservatoryError`, the only error class the code uses) exactly when the
host-liveness scan discovers zero ROACHes; when at least one ROACH is found
— including the one-ROACH case the claim would reject — only a warning is
logged and construction proceeds with the first two discovered ROACHes. -/
theorem C8_amended (l : List String) :
    (l = [] → n_roaches_check l = .error .observatoryError)
    ∧ (l ≠ [] → n_roaches_check l = .ok (l.take 2)) := by
  constructor
  · intro h
    subst h
    rfl
  · intro h
    unfold n_roaches_check
    rw [if_neg]
    intro hlen
    exact h (List.length_eq_zero.mp (by omega))

/-- Witness for C8: zero ROACHes abort; three ROACHes give the first two. -/
theorem C8_witness :
    n_roaches_check [] = .error .observatoryError
    ∧ n_roaches_check ["r1", "r2", "r3"] = .ok ["r1", "r2"] :=
  ⟨(C8_amended []).1 rfl, (C8_amended ["r1", "r2", "r3"]).2 (by decide)⟩

/-!
### Port wiring for DSS-13 (`src/dss13.py`)

`Port` objects are mutated in place by the Python code; here the output-port
dictionary is threaded through the computation, and an exception carries the
dictionary state at raise time, so "no ports were linked yet" is the
statement that the error carries the original dictionary.
-/

/-- Signal objects of the external MonitorControl framework, as far as this
repository constructs them.  `pyNone` stands for Python `None` in a signal
position; `complexSig` records the `ComplexSignal(...)` created by
`connect_FE_inputs_and_outputs` together with the `data['band']` and
`data['pol']` entries it sets; `ifsig` records the `IF(...)` created by
`connect_receiver_inputs_and_outputs`. -/
inductive Sig where
  | pyNone
  | beam (name : String)
  | complexSig (upstream : Sig) (name pol band : String)
  | ifsig (upstream : Sig) (IF_type : String)
deriving DecidableEq, Repr

/-- An upstream (producer) port: an identity and the signal it carries. -/
structure InPort where
  pid : Nat
  signal : Option Sig
deriving DecidableEq, Repr

/-- An output port of the node being wired: the upstream port recorded as
its `source` and its `signal`. -/
structure OutPort where
  source : Option InPort := none
  signal : Option Sig := none
deriving DecidableEq, Repr

/-- Modelled from the spec: the external MonitorControl `link_ports`
operation "sets a consumer Port's source and the corresponding producer
Port's destination list".  Every call site in this repository passes a
single producer, which every consumer port gets as its source (the fan-out
degenerate case); the destination list on the producer side is not read by
any code in this repository and is not modelled. -/
def link_ports (ins : PyDict String InPort) (outs : PyDict String OutPort) :
    PyDict String OutPort :=
  match ins with
  | [(_, p)] => outs.map (fun q => (q.1, { q.2 with source := some p }))
  | _ => outs

/-- Lexicographic comparison of character lists by code point (Python's
string ordering for the ASCII names used here). -/
def charListLe : List Char → List Char → Bool
  | [], _ => true
  | _ :: _, [] => false
  | a :: as, b :: bs =>
    if a.toNat < b.toNat then true
    else if b.toNat < a.toNat then false
    else charListLe as bs

/-- `a <= b` on strings, by code point. -/
def strLe (a b : String) : Bool := charListLe a.data b.data

/-- Python `sorted` / `list.sort()` on strings: insertion sort by the
lexicographic order. -/
def insortStr (x : String) : List String → List String
  | [] => [x]
  | y :: ys => if strLe x y then x :: y :: ys else y :: insortStr x ys

def sortStr : List String → List String
  | [] => []
  | x :: xs => insortStr x (sortStr xs)

/-- Result state of a wiring call: either the final output dictionary or an
exception together with the output dictionary as it was when the exception
was raised. -/
abbrev WireResult := Except (PyErr × PyDict String OutPort) (PyDict String OutPort)

/-- The output-port dictionary held in a `WireResult`, whether or not an
exception was raised. -/
def stateOf : WireResult → PyDict String OutPort
  | .ok st => st
  | .error (_, st) => st

/-- Python `list.index(x)` as an `Option`: the first position of `x`. -/
def pyIndex (x : String) : List String → Option Nat
  | [] => none
  | y :: ys => if y = x then some 0 else (pyIndex x ys).map (· + 1)

/-- The positional-pairing loop of `connect_receiver_inputs_and_outputs`
(`src/dss13.py`, lines 580–585): for each IF-code key `item`,
`index = output_names.index(item)` (`ValueError` when absent), then
`link_ports({input_keys[index]: inputs[input_keys[index]]},
{item: outputs[item]})`. -/
def rxPairGo (inputs : PyDict String InPort) (input_keys output_names : List String) :
    List (String × String) → PyDict String OutPort → WireResult
  | [], st => .ok st
  | (item, _) :: rest, st =>
    match pyIndex item output_names with
    | none => .error (.valueError, st)
    | some index =>
      match input_keys.get? index with
      | none => .error (.indexError, st)
      | some ik =>
        match dlookup ik inputs with
        | none => .error (.keyError, st)
        | some ip =>
          match dlookup item st with
          | none => .error (.keyError, st)
          | some op =>
            rxPairGo inputs input_keys output_names rest
              (dset st item { op with source := some ip })

/-- The signal loop of `connect_receiver_inputs_and_outputs`
(`src/dss13.py`, lines 587–591): for each output port, a fresh
`IF(None, IF_type=IF_out[key])` when its signal is `None`, else
`IF(outputs[key].source.signal, IF_type=IF_out[key])` (an `AttributeError`
when the source is `None`, a `KeyError` when the key is missing from
`IF_out`). -/
def rxSigGo (IF_out : PyDict String String) :
    PyDict String OutPort → List (String × OutPort) → WireResult
  | done, [] => .ok done
  | done, (k, p) :: rest =>
    match p.signal with
    | none =>
      match dlookup k IF_out with
      | none => .error (.keyError, done ++ (k, p) :: rest)
      | some code =>
        rxSigGo IF_out (done ++ [(k, { p with signal := some (.ifsig .pyNone code) })]) rest
    | some _ =>
      match p.source with
      | none => .error (.attributeError, done ++ (k, p) :: rest)
      | some ip =>
        match dlookup k IF_out with
        | none => .error (.keyError, done ++ (k, p) :: rest)
        | some code =>
          rxSigGo IF_out
            (done ++ [(k, { p with signal := some (.ifsig (ip.signal.getD .pyNone) code) })])
            rest

/-- `connect_receiver_inputs_and_outputs(inputs, outputs, IF_out)` of
`src/dss13.py` (lines 549–592): one input fans out to every output via
`link_ports`; otherwise `assert len(inputs) == len(outputs)`
(`AssertionError` on mismatch, before anything is linked), then positional
pairing of sorted input keys against sorted output names, and finally the
signal loop. -/
def connect_receiver_inputs_and_outputs (inputs : PyDict String InPort)
    (outputs : PyDict String OutPort) (IF_out : PyDict String String) : WireResult :=
  if inputs.length = 1 then
    rxSigGo IF_out [] (link_ports inputs outputs)
  else if inputs.length = outputs.length then
    match rxPairGo inputs (sortStr (dkeys inputs)) (sortStr (dkeys outputs))
        IF_out outputs with
    | .error e => .error e
    | .ok st => rxSigGo IF_out [] st
  else .error (.assertionError, outputs)

/-- The pairing loop of `connect_FE_inputs_and_outputs` (`src/dss13.py`,
lines 516–519): for each `item` of `pols_out`,
`index = output_names.index(item)` (`ValueError` when absent), then
`link_ports(inputs[input_keys[index]], item)` — but `input_keys` is never
defined in that function, so evaluating it raises `NameError`. -/
def fePairGo (output_names : List String) :
    List (String × String) → PyDict String OutPort → WireResult
  | [], st => .ok st
  | (item, _) :: _, st =>
    match pyIndex item output_names with
    | none => .error (.valueError, st)
    | some _ => .error (.nameError, st)

/-- The signal loop of `connect_FE_inputs_and_outputs` (`src/dss13.py`,
lines 521–528): a `ComplexSignal` per output, tagged with the output name,
its polarization from `pols_out` and the band. -/
def feSigGo (band : String) (pols_out : PyDict String String) :
    PyDict String OutPort → List (String × OutPort) → WireResult
  | done, [] => .ok done
  | done, (k, p) :: rest =>
    match p.signal with
    | none =>
      match dlookup k pols_out with
      | none => .error (.keyError, done ++ (k, p) :: rest)
      | some pol =>
        feSigGo band pols_out
          (done ++ [(k, { p with signal := some (.complexSig .pyNone k pol band) })]) rest
    | some _ =>
      match p.source with
      | none => .error (.attributeError, done ++ (k, p) :: rest)
      | some ip =>
        match dlookup k pols_out with
        | none => .error (.keyError, done ++ (k, p) :: rest)
        | some pol =>
          feSigGo band pols_out
            (done ++ [(k, { p with
              signal := some (.complexSig (ip.signal.getD .pyNone) k pol band) })])
            rest

/-- `connect_FE_inputs_and_outputs(inputs, band, outputs, pols_out)` of
`src/dss13.py` (lines 485–529): one input fans out to every output;
otherwise `assert len(inputs) == len(outputs)` then the pairing loop (which
reads the undefined name `input_keys`), and finally the signal loop. -/
def connect_FE_inputs_and_outputs (inputs : PyDict String InPort) (band : String)
    (outputs : PyDict String OutPort) (pols_out : PyDict String String) : WireResult :=
  if inputs.length = 1 then
    feSigGo band pols_out [] (link_ports inputs outputs)
  else if inputs.length = outputs.length then
    match fePairGo (sortStr (dkeys outputs)) pols_out outputs with
    | .error e => .error e
    | .ok st => feSigGo band pols_out [] st
  else .error (.assertionError, outputs)

/-- The key and source of an output-port entry (the view the wiring claims
are about). -/
def projSource (q : String × OutPort) : String × Option InPort := (q.1, q.2.source)

theorem insortStr_perm (x : String) (l : List String) :
    List.Perm (insortStr x l) (x :: l) := by
  induction l with
  | nil => exact List.Perm.refl _
  | cons y ys ih =>
    unfold insortStr
    by_cases h : strLe x y
    · rw [if_pos h]
    · rw [if_neg h]
      exact ((ih.cons y).trans (List.Perm.swap x y ys))

theorem sortStr_perm (l : List String) : List.Perm (sortStr l) l := by
  induction l with
  | nil => exact List.Perm.refl _
  | cons x xs ih => exact (insortStr_perm x (sortStr xs)).trans (ih.cons x)

theorem mem_sortStr {x : String} {l : List String} (h : x ∈ l) : x ∈ sortStr l :=
  (sortStr_perm l).mem_iff.mpr h

theorem mem_of_mem_sortStr {x : String} {l : List String} (h : x ∈ sortStr l) : x ∈ l :=
  (sortStr_perm l).mem_iff.mp h

theorem sortStr_length (l : List String) : (sortStr l).length = l.length :=
  (sortStr_perm l).length_eq

theorem sortStr_nodup {l : List String} (h : l.Nodup) : (sortStr l).Nodup :=
  ((sortStr_perm l).nodup_iff).mpr h

theorem pyIndex_isSome_of_mem {x : String} : ∀ {l : List String}, x ∈ l →
    (pyIndex x l).isSome = true := by
  intro l
  induction l with
  | nil => intro h; simp at h
  | cons y ys ih =>
    intro h
    unfold pyIndex
    by_cases hy : y = x
    · rw [if_pos hy]; rfl
    · rw [if_neg hy]
      rcases List.mem_cons.mp h with h' | h'
      · exact absurd h'.symm hy
      · cases hp : pyIndex x ys with
        | none => rw [hp] at ih; exact absurd (ih h') (by simp)
        | some i => simp [hp]

theorem pyIndex_some_lt {x : String} : ∀ {l : List String} {i : Nat},
    pyIndex x l = some i → i < l.length := by
  intro l
  induction l with
  | nil => intro i h; simp [pyIndex] at h
  | cons y ys ih =>
    intro i h
    unfold pyIndex at h
    by_cases hy : y = x
    · rw [if_pos hy] at h
      injection h with h
      simp [← h]
    · rw [if_neg hy] at h
      cases hp : pyIndex x ys with
      | none => rw [hp] at h; simp at h
      | some j =>
        rw [hp] at h
        simp at h
        have := ih hp
        simp [← h]
        omega

theorem pyIndex_get?_of_nodup {x : String} : ∀ {l : List String} {i : Nat}, l.Nodup →
    l.get? i = some x → pyIndex x l = some i := by
  intro l
  induction l with
  | nil => intro i _ h; simp at h
  | cons y ys ih =>
    intro i hnd h
    cases i with
    | zero =>
      simp at h
      subst h
      simp [pyIndex]
    | succ j =>
      simp at h
      have hy : y ≠ x := by
        intro hyx
        subst hyx
        exact (List.nodup_cons.mp hnd).1 (List.getElem?_mem h)
      rw [pyIndex, if_neg hy, ih (List.nodup_cons.mp hnd).2 (by simpa using h)]
      rfl

theorem mem_dset_cases {κ ν : Type} [DecidableEq κ] {q : κ × ν} {d : PyDict κ ν}
    {k : κ} {v : ν} (h : q ∈ dset d k v) : q ∈ d ∨ q = (k, v) := by
  unfold dset at h
  cases hl : dlookup k d with
  | some v' =>
    rw [hl] at h
    rcases List.mem_map.mp h with ⟨q', hq', hqeq⟩
    by_cases hk : q'.1 = k
    · right
      rw [← hqeq]
      simp [hk]
    · left
      rw [← hqeq]
      simpa [hk] using hq'
  | none =>
    rw [hl] at h
    rcases List.mem_append.mp h with h' | h'
    · exact Or.inl h'
    · simp at h'
      exact Or.inr h'

theorem dlookup_some_of_mem_dkeys {κ ν : Type} [DecidableEq κ] {k : κ} {d : PyDict κ ν}
    (h : k ∈ dkeys d) : ∃ v, dlookup k d = some v := by
  have := (dlookup_isSome_iff_mem_dkeys k d).mpr h
  cases hl : dlookup k d with
  | none => rw [hl] at this; simp at this
  | some v => exact ⟨v, rfl⟩

theorem rxSigGo_proj (IF_out : PyDict String String) :
    ∀ (todo : List (String × OutPort)) (done : PyDict String OutPort),
    (stateOf (rxSigGo IF_out done todo)).map projSource
      = done.map projSource ++ todo.map projSource := by
  intro todo
  induction todo with
  | nil => intro done; simp [rxSigGo, stateOf]
  | cons q rest ih =>
    intro done
    obtain ⟨k, p⟩ := q
    unfold rxSigGo
    cases hsig : p.signal with
    | none =>
      cases hif : dlookup k IF_out with
      | none => simp [stateOf]
      | some code =>
        rw [ih]
        simp [projSource]
    | some s =>
      cases hsrc : p.source with
      | none => simp [stateOf]
      | some ip =>
        cases hif : dlookup k IF_out with
        | none => simp [stateOf]
        | some code =>
          rw [ih]
          simp [projSource, hsrc]

theorem feSigGo_proj (band : String) (pols_out : PyDict String String) :
    ∀ (todo : List (String × OutPort)) (done : PyDict String OutPort),
    (stateOf (feSigGo band pols_out done todo)).map projSource
      = done.map projSource ++ todo.map projSource := by
  intro todo
  induction todo with
  | nil => intro done; simp [feSigGo, stateOf]
  | cons q rest ih =>
    intro done
    obtain ⟨k, p⟩ := q
    unfold feSigGo
    cases hsig : p.signal with
    | none =>
      cases hif : dlookup k pols_out with
      | none => simp [stateOf]
      | some pol =>
        rw [ih]
        simp [projSource]
    | some s =>
      cases hsrc : p.source with
      | none => simp [stateOf]
      | some ip =>
        cases hif : dlookup k pols_out with
        | none => simp [stateOf]
        | some pol =>
          rw [ih]
          simp [projSource, hsrc]

theorem rxSigGo_ok (IF_out : PyDict String String) :
    ∀ (todo : List (String × OutPort)) (done : PyDict String OutPort),
    (∀ q ∈ todo, q.2.signal = none) →
    (∀ q ∈ todo, q.1 ∈ dkeys IF_out) →
    ∃ st', rxSigGo IF_out done todo = .ok st' := by
  intro todo
  induction todo with
  | nil => intro done _ _; exact ⟨done, rfl⟩
  | cons q rest ih =>
    intro done hsig hkeys
    obtain ⟨k, p⟩ := q
    unfold rxSigGo
    rw [show p.signal = none from hsig (k, p) (List.mem_cons_self _ _)]
    obtain ⟨code, hcode⟩ :=
      dlookup_some_of_mem_dkeys (hkeys (k, p) (List.mem_cons_self _ _))
    rw [hcode]
    exact ih _ (fun q hq => hsig q (List.mem_cons_of_mem _ hq))
      (fun q hq => hkeys q (List.mem_cons_of_mem _ hq))

theorem rxPairGo_spec (inputs : PyDict String InPort) (sortIn sortOut : List String)
    (hlen : sortIn.length = sortOut.length)
    (hins : ∀ x ∈ sortIn, x ∈ dkeys inputs) :
    ∀ (l : List (String × String)) (st : PyDict String OutPort),
    (dkeys l).Nodup →
    (∀ q ∈ l, q.1 ∈ sortOut) →
    (∀ q ∈ l, q.1 ∈ dkeys st) →
    (∀ q ∈ st, q.2.signal = none) →
    ∃ st', rxPairGo inputs sortIn sortOut l st = .ok st' ∧
      dkeys st' = dkeys st ∧
      (∀ q ∈ st', q.2.signal = none) ∧
      (∀ k, k ∉ dkeys l → dlookup k st' = dlookup k st) ∧
      (∀ q ∈ l, ∃ i ik ip op,
        pyIndex q.1 sortOut = some i ∧ sortIn.get? i = some ik ∧
        dlookup ik inputs = some ip ∧ dlookup q.1 st = some op ∧
        dlookup q.1 st' = some { op with source := some ip }) := by
  intro l
  induction l with
  | nil =>
    intro st _ _ _ hsig
    exact ⟨st, rfl, rfl, hsig, fun k _ => rfl, fun q hq => absurd hq (by simp)⟩
  | cons q0 rest ih =>
    intro st hnd hout hkeys hsig
    obtain ⟨k0, c0⟩ := q0
    have hdkcons : dkeys ((k0, c0) :: rest) = k0 :: dkeys rest := rfl
    rw [hdkcons] at hnd
    have hk0rest : k0 ∉ dkeys rest := (List.nodup_cons.mp hnd).1
    have hndrest : (dkeys rest).Nodup := (List.nodup_cons.mp hnd).2
    unfold rxPairGo
    have hk0out : k0 ∈ sortOut := hout (k0, c0) (List.mem_cons_self _ _)
    obtain ⟨i0, hi0⟩ : ∃ i, pyIndex k0 sortOut = some i := by
      have := pyIndex_isSome_of_mem hk0out
      cases h : pyIndex k0 sortOut with
      | none => rw [h] at this; simp at this
      | some i => exact ⟨i, rfl⟩
    have hlt : i0 < sortIn.length := by rw [hlen]; exact pyIndex_some_lt hi0
    obtain ⟨ik0, hik0⟩ : ∃ ik, sortIn.get? i0 = some ik := by
      rw [List.get?_eq_get hlt]; exact ⟨_, rfl⟩
    obtain ⟨ip0, hip0⟩ :=
      dlookup_some_of_mem_dkeys (hins ik0 (List.get?_mem hik0))
    obtain ⟨op0, hop0⟩ :=
      dlookup_some_of_mem_dkeys (hkeys (k0, c0) (List.mem_cons_self _ _))
    simp only [hi0, hik0, hip0, hop0]
    have hop0sig : op0.signal = none := hsig (k0, op0) (dlookup_mem hop0)
    have hkeyseq : dkeys (dset st k0 { op0 with source := some ip0 }) = dkeys st :=
      dkeys_dset_of_mem (hkeys (k0, c0) (List.mem_cons_self _ _)) _
    obtain ⟨st', hrun, hkeq, hsig', huntouched, hformula⟩ :=
      ih (dset st k0 { op0 with source := some ip0 }) hndrest
        (fun q hq => hout q (List.mem_cons_of_mem _ hq))
        (fun q hq => by rw [hkeyseq]; exact hkeys q (List.mem_cons_of_mem _ hq))
        (fun q hq => by
          rcases mem_dset_cases hq with h | h
          · exact hsig q h
          · rw [h]
            exact hop0sig)
    refine ⟨st', hrun, by rw [hkeq, hkeyseq], hsig', ?_, ?_⟩
    · intro k hk
      rw [hdkcons] at hk
      have hk1 : k ≠ k0 := fun he => hk (by rw [he]; exact List.mem_cons_self _ _)
      have hk2 : k ∉ dkeys rest := fun he => hk (List.mem_cons_of_mem _ he)
      rw [huntouched k hk2]
      exact dlookup_dset_ne st hk1 _
    · intro q hq
      rcases List.mem_cons.mp hq with rfl | hq'
      · refine ⟨i0, ik0, ip0, op0, hi0, hik0, hip0, hop0, ?_⟩
        rw [huntouched k0 hk0rest, dlookup_dset_self]
      · obtain ⟨i, ik, ip, op, h1, h2, h3, h4, h5⟩ := hformula q hq'
        have hqne : q.1 ≠ k0 := by
          intro he
          exact hk0rest (he ▸ List.mem_map.mpr ⟨q, hq', rfl⟩)
        rw [dlookup_dset_ne st hqne _] at h4
        exact ⟨i, ik, ip, op, h1, h2, h3, h4, h5⟩

theorem dlookup_map_source_of_proj_eq :
    ∀ {d₁ d₂ : PyDict String OutPort},
    d₁.map projSource = d₂.map projSource →
    ∀ k, (dlookup k d₁).map OutPort.source = (dlookup k d₂).map OutPort.source := by
  intro d₁
  induction d₁ with
  | nil =>
    intro d₂ h k
    have : d₂.map projSource = [] := h.symm
    rw [List.map_eq_nil] at this
    subst this
    rfl
  | cons q t ih =>
    intro d₂ h k
    cases d₂ with
    | nil => simp at h
    | cons q' t' =>
      obtain ⟨k1, p1⟩ := q
      obtain ⟨k2, p2⟩ := q'
      simp only [List.map_cons, List.cons.injEq, projSource, Prod.mk.injEq] at h
      obtain ⟨⟨hkk, hss⟩, htail⟩ := h
      subst hkk
      by_cases hk : k1 = k
      · simp [dlookup, hk, hss]
      · simp only [dlookup, hk, if_false]
        exact ih htail k

theorem wireFanoutFE (ikey : String) (p : InPort) (band : String)
    (outputs : PyDict String OutPort) (pols_out : PyDict String String) :
    (stateOf (connect_FE_inputs_and_outputs [(ikey, p)] band outputs pols_out)).map
        projSource
      = outputs.map (fun q => (q.1, some p)) := by
  unfold connect_FE_inputs_and_outputs
  rw [if_pos (by rfl)]
  rw [feSigGo_proj]
  unfold link_ports
  simp [projSource]

theorem wireFanoutRx (ikey : String) (p : InPort)
    (outputs : PyDict String OutPort) (IF_out : PyDict String String) :
    (stateOf (connect_receiver_inputs_and_outputs [(ikey, p)] outputs IF_out)).map
        projSource
      = outputs.map (fun q => (q.1, some p)) := by
  unfold connect_receiver_inputs_and_outputs
  rw [if_pos (by rfl)]
  rw [rxSigGo_proj]
  unfold link_ports
  simp [projSource]

theorem wireMismatchRx (inputs : PyDict String InPort)
    (outputs : PyDict String OutPort) (IF_out : PyDict String String)
    (h1 : inputs.length ≠ 1) (h2 : inputs.length ≠ outputs.length) :
    connect_receiver_inputs_and_outputs inputs outputs IF_out
      = .error (.assertionError, outputs) := by
  unfold connect_receiver_inputs_and_outputs
  rw [if_neg h1, if_neg h2]

theorem wireMismatchFE (inputs : PyDict String InPort) (band : String)
    (outputs : PyDict String OutPort) (pols_out : PyDict String String)
    (h1 : inputs.length ≠ 1) (h2 : inputs.length ≠ outputs.length) :
    connect_FE_inputs_and_outputs inputs band outputs pols_out
      = .error (.assertionError, outputs) := by
  unfold connect_FE_inputs_and_outputs
  rw [if_neg h1, if_neg h2]

theorem wirePairRx (inputs : PyDict String InPort)
    (outputs : PyDict String OutPort) (IF_out : PyDict String String)
    (hlen1 : inputs.length ≠ 1)
    (hlen2 : inputs.length = outputs.length)
    (hfresh : ∀ q ∈ outputs, q.2.signal = none)
    (hndO : (dkeys outputs).Nodup)
    (hndI : (dkeys IF_out).Nodup)
    (hcov : ∀ k, k ∈ dkeys outputs → k ∈ dkeys IF_out)
    (hcov' : ∀ k, k ∈ dkeys IF_out → k ∈ dkeys outputs) :
    ∃ st', connect_receiver_inputs_and_outputs inputs outputs IF_out = .ok st' ∧
      ∀ i ok ik, (sortStr (dkeys outputs)).get? i = some ok →
        (sortStr (dkeys inputs)).get? i = some ik →
        (dlookup ok st').map OutPort.source = some (dlookup ik inputs) := by
  have hsortlen : (sortStr (dkeys inputs)).length = (sortStr (dkeys outputs)).length := by
    rw [sortStr_length, sortStr_length]
    unfold dkeys
    rw [List.length_map, List.length_map]
    exact hlen2
  obtain ⟨stP, hrunP, hkeysP, hsigP, huntouchedP, hformP⟩ :=
    rxPairGo_spec inputs (sortStr (dkeys inputs)) (sortStr (dkeys outputs)) hsortlen
      (fun x hx => mem_of_mem_sortStr hx)
      IF_out outputs hndI
      (fun q hq => mem_sortStr (hcov' q.1 (List.mem_map.mpr ⟨q, hq, rfl⟩)))
      (fun q hq => hcov' q.1 (List.mem_map.mpr ⟨q, hq, rfl⟩))
      hfresh
  obtain ⟨stF, hrunF⟩ :=
    rxSigGo_ok IF_out stP []
      (fun q hq => hsigP q hq)
      (fun q hq => hcov q.1 (by rw [← hkeysP]; exact List.mem_map.mpr ⟨q, hq, rfl⟩))
  refine ⟨stF, ?_, ?_⟩
  · unfold connect_receiver_inputs_and_outputs
    rw [if_neg hlen1, if_pos hlen2, hrunP]
    exact hrunF
  · intro i ok ik hok hik
    have hproj : stF.map projSource = stP.map projSource := by
      have := rxSigGo_proj IF_out stP []
      rw [hrunF] at this
      simpa [stateOf] using this
    rw [dlookup_map_source_of_proj_eq hproj ok]
    have hokIF : ok ∈ dkeys IF_out :=
      hcov ok (mem_of_mem_sortStr (List.get?_mem hok))
    obtain ⟨c, hc⟩ : ∃ c, (ok, c) ∈ IF_out := by
      rcases List.mem_map.mp hokIF with ⟨q, hq, hqe⟩
      exact ⟨q.2, by rw [← hqe]; exact (by simpa using hq)⟩
    obtain ⟨i', ik', ip, op, h1, h2, h3, h4, h5⟩ := hformP (ok, c) hc
    have hi' : i' = i := by
      have := pyIndex_get?_of_nodup (sortStr_nodup hndO) hok
      rw [this] at h1
      injection h1 with h1
      exact h1.symm
    subst hi'
    rw [hik] at h2
    injection h2 with h2
    subst h2
    rw [h5, h3]
    rfl

/-- Claim C5, counterexample: a front-end wiring call with two inputs and
two outputs — counts equal, so the claim promises positional pairing — does
not pair them: it raises `NameError` (the undefined `input_keys`) before
linking any port (the dictionary carried by the error is the unchanged
`outputs`). -/
theorem C5_counterexample :
    ([("XL", InPort.mk 1 none), ("XR", InPort.mk 2 none)].length
      = [("XL", OutPort.mk none none), ("XR", OutPort.mk none none)].length)
    ∧ connect_FE_inputs_and_outputs
        [("XL", InPort.mk 1 none), ("XR", InPort.mk 2 none)] "X"
        [("XL", OutPort.mk none none), ("XR", OutPort.mk none none)]
        [("XL", "L"), ("XR", "R")]
      = .error (.nameError,
          [("XL", OutPort.mk none none), ("XR", OutPort.mk none none)]) :=
  ⟨rfl, rfl⟩

/-- Claim C5 (amended): (1) a front-end wiring call with exactly one
upstream port sets every output port's source to that port, whatever else
happens afterwards; (2) likewise for a receiver wiring call; (3) a receiver
wiring call with more than one input, matching counts, fresh output ports
and an IF-code mapping covering exactly the output names succeeds and pairs
sorted input keys to sorted output names positionally; (4)/(5) when the
counts disagree and the input count is not one, receiver and front-end
wiring fail with `AssertionError` (the bare `assert`, the code's stand-in
for a `WiringError`) and the error carries the unchanged outputs — no port
was linked.  (The front-end equal-count pairing branch itself never
completes; see the `input_keys` `NameError`.) -/
theorem C5_amended :
    (∀ (ikey : String) (p : InPort) (band : String) (outputs : PyDict String OutPort)
        (pols_out : PyDict String String),
      (stateOf (connect_FE_inputs_and_outputs [(ikey, p)] band outputs pols_out)).map
          projSource
        = outputs.map (fun q => (q.1, some p)))
    ∧ (∀ (ikey : String) (p : InPort) (outputs : PyDict String OutPort)
        (IF_out : PyDict String String),
      (stateOf (connect_receiver_inputs_and_outputs [(ikey, p)] outputs IF_out)).map
          projSource
        = outputs.map (fun q => (q.1, some p)))
    ∧ (∀ (inputs : PyDict String InPort) (outputs : PyDict String OutPort)
        (IF_out : PyDict String String),
      inputs.length ≠ 1 →
      inputs.length = outputs.length →
      (∀ q ∈ outputs, q.2.signal = none) →
      (dkeys outputs).Nodup →
      (dkeys IF_out).Nodup →
      (∀ k, k ∈ dkeys outputs → k ∈ dkeys IF_out) →
      (∀ k, k ∈ dkeys IF_out → k ∈ dkeys outputs) →
      ∃ st', connect_receiver_inputs_and_outputs inputs outputs IF_out = .ok st' ∧
        ∀ i ok ik, (sortStr (dkeys outputs)).get? i = some ok →
          (sortStr (dkeys inputs)).get? i = some ik →
          (dlookup ok st').map OutPort.source = some (dlookup ik inputs))
    ∧ (∀ (inputs : PyDict String InPort) (outputs : PyDict String OutPort)
        (IF_out : PyDict String String),
      inputs.length ≠ 1 → inputs.length ≠ outputs.length →
      connect_receiver_inputs_and_outputs inputs outputs IF_out
        = .error (.assertionError, outputs))
    ∧ (∀ (inputs : PyDict String InPort) (band : String) (outputs : PyDict String OutPort)
        (pols_out : PyDict String String),
      inputs.length ≠ 1 → inputs.length ≠ outputs.length →
      connect_FE_inputs_and_outputs inputs band outputs pols_out
        = .error (.assertionError, outputs)) :=
  ⟨wireFanoutFE, wireFanoutRx, wirePairRx, wireMismatchRx, wireMismatchFE⟩

/-- Witness for C5: a concrete fan-out, a concrete successful positional
pairing, and a concrete count-mismatch failure. -/
theorem C5_witness :
    (stateOf (connect_FE_inputs_and_outputs [("S", InPort.mk 7 none)] "S"
        [("SR", OutPort.mk none none), ("SL", OutPort.mk none none)]
        [("SR", "R"), ("SL", "L")])).map projSource
      = [("SR", some (InPort.mk 7 none)), ("SL", some (InPort.mk 7 none))]
    ∧ (connect_receiver_inputs_and_outputs
        [("XR", InPort.mk 1 none), ("XL", InPort.mk 2 none)]
        [("XRU", OutPort.mk none none), ("XLU", OutPort.mk none none)]
        [("XRU", "U"), ("XLU", "U")]).isOk = true
    ∧ connect_receiver_inputs_and_outputs
        [("a", InPort.mk 1 none), ("b", InPort.mk 2 none), ("c", InPort.mk 3 none)]
        [("u", OutPort.mk none none)] []
      = .error (.assertionError, [("u", OutPort.mk none none)]) := by
  refine ⟨?_, ?_, ?_⟩
  · have h := C5_amended.1 "S" (InPort.mk 7 none) "S"
      [("SR", OutPort.mk none none), ("SL", OutPort.mk none none)]
      [("SR", "R"), ("SL", "L")]
    exact h
  · obtain ⟨st', hok, _⟩ := C5_amended.2.2.1
      [("XR", InPort.mk 1 none), ("XL", InPort.mk 2 none)]
      [("XRU", OutPort.mk none none), ("XLU", OutPort.mk none none)]
      [("XRU", "U"), ("XLU", "U")]
      (by decide) (by decide) (by decide) (by decide) (by decide)
      (by decide) (by decide)
    rw [hok]
    rfl
  · exact C5_amended.2.2.2.2
      [("a", InPort.mk 1 none), ("b", InPort.mk 2 none), ("c", InPort.mk 3 none)] "?"
      [("u", OutPort.mk none none)] [] (by decide) (by decide)

/-- Claim C9: whenever `connect_FE_inputs_and_outputs` is called with more
than one input and as many outputs as inputs, the positional-pairing branch
raises an unconditional error before linking any port — `NameError`, because
it reads the name `input_keys`, which is never defined in that function (the
error carries the outputs unchanged, so no port was linked; the first
`pols_out` key names an existing output, as every well-formed call does). -/
theorem C9_theorem (inputs : PyDict String InPort) (band : String)
    (outputs : PyDict String OutPort) (pols_out : PyDict String String)
    (k c : String) (rest : List (String × String))
    (hlen1 : inputs.length ≠ 1)
    (hlen2 : inputs.length = outputs.length)
    (hpols : pols_out = (k, c) :: rest)
    (hk : k ∈ dkeys outputs) :
    connect_FE_inputs_and_outputs inputs band outputs pols_out
      = .error (.nameError, outputs) := by
  subst hpols
  unfold connect_FE_inputs_and_outputs
  rw [if_neg hlen1, if_pos hlen2]
  obtain ⟨i, hi⟩ : ∃ i, pyIndex k (sortStr (dkeys outputs)) = some i := by
    have := pyIndex_isSome_of_mem (mem_sortStr hk)
    cases h : pyIndex k (sortStr (dkeys outputs)) with
    | none => rw [h] at this; simp at this
    | some i => exact ⟨i, rfl⟩
  simp only [fePairGo, hi]

/-- Witness for C9: a concrete two-input, two-output front-end wiring call
raises `NameError` with the outputs untouched. -/
theorem C9_witness :
    connect_FE_inputs_and_outputs
      [("KaR", InPort.mk 3 none), ("KaL", InPort.mk 4 none)] "Ka"
      [("KaR", OutPort.mk none none), ("KaL", OutPort.mk none none)]
      [("KaL", "L"), ("KaR", "R")]
    = .error (.nameError,
        [("KaR", OutPort.mk none none), ("KaL", OutPort.mk none none)]) :=
  C9_theorem _ "Ka" _ _ "KaL" "L" [("KaR", "R")] (by decide) (by decide) rfl
    (by decide)

/-!
### Band/polarization inference (`src/dss13.py`, `get_FE_band_and_pols`)
-/

/-- Modelled from the spec: the valid band codes of the external
MonitorControl module (§4.1's enumerated set for the `band` property
kind). -/
def bandCodes : List String := ["S", "X", "Ka"]

/-- Modelled from the spec: the valid polarization codes (`pol_type`
property kind; glossary: R = right circular, L = left circular). -/
def polCodes : List String := ["R", "L"]

/-- The first substring of `s` (scanning positions left to right) that is
one of the valid codes. -/
def firstCodeIn (codes : List String) : List Char → Option String
  | [] => none
  | c :: rest =>
    match codes.find? (fun code => code.data.isPrefixOf (c :: rest)) with
    | some code => some code
    | none => firstCodeIn codes rest

/-- Modelled from the spec: the external MonitorControl `valid_property`
(called here with its default `abort=True`): scans each name for the first
substring matching one of the property's valid codes and returns the
mapping from name to matched code; fails (`MissingPropertyError`, realized
as `ObservatoryError`) when no name yields a match. -/
def valid_property (names : List String) (codes : List String) :
    Except PyErr (PyDict String String) :=
  match names.filterMap (fun n => (firstCodeIn codes n.data).map (fun c => (n, c))) with
  | [] => .error .observatoryError
  | p :: rest => .ok (p :: rest)

/-- The output-polarization part of `get_FE_band_and_pols` (`src/dss13.py`,
lines 474–483): `pols_out == None and output_names == None` raises — but
`ObservatoryError` is never imported in `dss13.py`, so the raise itself is a
`NameError`; a truthy `pols_out` gives `output_names = sorted(pols_out
keys)`; otherwise (including the falsy empty dict) `pols_out =
valid_property(output_names, 'pol_type')`, a `TypeError` when
`output_names` is `None`. -/
def fePolsStep (b : String) (pols_out : Option (PyDict String String))
    (output_names : Option (List String)) :
    Except PyErr (String × List String × PyDict String String) :=
  match pols_out, output_names with
  | none, none => .error .nameError
  | some po, ons =>
    if po.isEmpty then
      match ons with
      | none => .error .typeError
      | some onames =>
        match valid_property onames polCodes with
        | .error e => .error e
        | .ok po' => .ok (b, onames, po')
    else .ok (b, sortStr (dkeys po), po)
  | none, some onames =>
    match valid_property onames polCodes with
    | .error e => .error e
    | .ok po' => .ok (b, onames, po')

/-- `get_FE_band_and_pols(inputs, band, pols_out, output_names)` of
`src/dss13.py` (lines 428–483).  When `band` is not given it is inferred:
`bands = valid_property(input_keys, 'band')` (the input keys sorted), then
`band = bands[list(bands.keys())[0]]`; with more than one input the source
then evaluates `(bands == band).all()` — `bands` is the name-to-code
mapping and `band` a string, so `bands == band` is the boolean `False`,
whose `.all()` attribute access raises `AttributeError` before any
consistency verdict; the `if bands == False` arm (line 463) is unreachable
under `abort=True` and its `raise ObservatoryError` would itself be a
`NameError` (never imported). -/
def get_FE_band_and_pols (inputs : PyDict String InPort) (band : Option String)
    (pols_out : Option (PyDict String String)) (output_names : Option (List String)) :
    Except PyErr (String × List String × PyDict String String) :=
  match band with
  | some b => fePolsStep b pols_out output_names
  | none =>
    match valid_property (sortStr (dkeys inputs)) bandCodes with
    | .error e => .error e
    | .ok bands =>
      match bands with
      | [] => .error .indexError
      | p :: _ =>
        if inputs.length > 1 then .error .attributeError
        else fePolsStep p.2 pols_out output_names

/-- Claim C6: front-end construction with two inputs whose names both carry
the band code `X` — band codes present and in agreement, so the claim says
the band is inferred and no error is raised — in fact fails with
`AttributeError`: the consistency check `(bands == band).all()` calls
`.all()` on the boolean `False` (a dict compared to a string), so every
multi-input call with an inferred band crashes, contradicting the
docstring's "the first occurrence of a valid band code in the name is used
as the band" and "all the inputs must have the same band code". -/
theorem C6_theorem :
    get_FE_band_and_pols [("XR", InPort.mk 1 none), ("XL", InPort.mk 2 none)]
      none none (some ["XR", "XL"])
      = .error .attributeError := rfl
